import Mathlib

/-!
# Tunnel client bootstrap (`cmd/tunnel`): a shallow embedding

The Go program `cmd/tunnel` parses its command line (`options.go`, `parseArgs`),
loads or synthesizes a client configuration, resolves the tunnels to start,
builds a TLS configuration (`tlsConfig`), compiles the proxy routing tables
(`proxy`) and hands everything to the tunnel runtime (`tunnel.go`, `main`).

Conventions of the embedding.

* Go `string` is `String`; Go `int` is `Int`.
* A Go `map[string]V` is an association list `GoMap V` whose list order stands
  for the order in which the runtime happens to iterate the map.  Theorems
  quantify over every such list, hence over every iteration order.
* Library and runtime collaborators (`fmt.Sprintf`, the config loader,
  `tls.X509KeyPair`, `ioutil.ReadFile`, `url.Parse`, ...) are fields of `Env`.
* A map that the program builds is iterated in the order in which its keys were first
  written; this is one of the orders the runtime may choose.
* `main` returns the trace of its process-level effects.  A trace that ends in
  `Event.exit c` is a run terminated by `os.Exit(c)`; a trace without an `exit`
  event is a normal return from `main`.
-/

namespace TunnelCmd

/-! ## Go maps -/

/-- A Go `map[string]V`; the list order is the iteration order. -/
abbrev GoMap (V : Type) := List (String × V)

/-- The two-valued map read `v, ok := m[k]`. -/
def mapGet {V : Type} : GoMap V → String → Option V
  | [], _ => none
  | (k', v) :: rest, k => if k' = k then some v else mapGet rest k

/-- The map write `m[k] = v`: replaces the value of an existing key, adds a new key otherwise. -/
def mapSet {V : Type} : GoMap V → String → V → GoMap V
  | [], k, v => [(k, v)]
  | (k', v') :: rest, k, v => if k' = k then (k, v) :: rest else (k', v') :: mapSet rest k v

/-- The keys of a map, in iteration order. -/
def mapKeys {V : Type} (m : GoMap V) : List String := m.map Prod.fst

/-- The builtin `len(m)`. -/
def mapLen {V : Type} (m : GoMap V) : Nat := m.length

/-! ## Configuration types -/

/-- Modelled from the spec: the declaration of `Tunnel` (the tunnel definition of §3) is not
among the sources; the fields are those read by `main`, `tunnels` and `proxy`. -/
structure Tunnel where
  Protocol : String
  Addr : String
  Auth : String
  Host : String
  RemoteAddr : String
deriving DecidableEq, Repr

/-- Modelled from the spec: the declaration of `BackoffConfig` (BackoffSettings of §3) is not
among the sources; durations are nanosecond counts and the multiplier is carried as the bit
pattern of its `float64`, since it is only copied. -/
structure BackoffConfig where
  Interval : Int
  Multiplier : Nat
  MaxInterval : Int
  MaxTime : Int
deriving DecidableEq, Repr

/-- Modelled from the spec: the declaration of `ClientConfig` (the Manifest of §3) is not among
the sources; the fields are those read by `main` and `tlsConfig`.  Tunnel values are modelled
as non-nil pointers. -/
structure ClientConfig where
  ServerAddr : String
  RootCA : String
  Backoff : BackoffConfig
  Tunnels : GoMap Tunnel
deriving DecidableEq, Repr

/-- The zero value of `BackoffConfig`. -/
def BackoffConfig.zero : BackoffConfig := ⟨0, 0, 0, 0⟩

/-! ## Command line (`options.go`) -/

/-- What `flag.Parse()` leaves behind: the values of the six flags and the positional
arguments `flag.Args()`. -/
structure CmdLine where
  config : String
  host : String
  port : Int
  protocol : String
  logLevel : Int
  version : Bool
  positional : List String
deriving DecidableEq, Repr

/-- The struct `options`. -/
structure options where
  config : String
  logLevel : Int
  version : Bool
  command : String
  host : String
  port : Int
  protocol : String
  args : List String
deriving DecidableEq, Repr

/-- The three ways `parseArgs` ends: `(opts, nil)`, `(nil, err)`, or usage text followed by
`os.Exit(2)` when no command is given. -/
inductive ParseResult where
  | ok (opts : options)
  | error (err : String)
  | usageExit
deriving DecidableEq, Repr

/-- `flag.Arg(0)`: the first positional argument, or the empty string. -/
def flagArg0 (cl : CmdLine) : String :=
  match cl.positional with
  | [] => ""
  | c :: _ => c

/-- `parseArgs` of `options.go`; `sprintf` stands for `fmt.Sprintf`, which renders the
messages of `fmt.Errorf`. -/
def parseArgs (sprintf : String → List String → String) (cl : CmdLine) : ParseResult :=
  let opts : options :=
    { config := cl.config, host := cl.host, port := cl.port, protocol := cl.protocol,
      logLevel := cl.logLevel, version := cl.version, command := flagArg0 cl, args := [] }
  if opts.version then .ok opts
  else if opts.command = "" then .usageExit
  else if opts.command = "id" ∨ opts.command = "list" then
    let opts := { opts with args := cl.positional.drop 1 }
    if opts.args.length > 0 then .error (sprintf "list takes no arguments" [])
    else .ok opts
  else if opts.command = "start" then
    let opts := { opts with args := cl.positional.drop 1 }
    if opts.args.length = 0 then
      .error (sprintf "you must specify at least one tunnel to start" [])
    else .ok opts
  else if opts.command = "start-all" then
    let opts := { opts with args := cl.positional.drop 1 }
    if opts.args.length > 0 then .error (sprintf "start-all takes no arguments" [])
    else .ok opts
  else if opts.command = "qstart" then
    let opts := { opts with args := cl.positional.drop 1 }
    if opts.args.length > 0 then .error (sprintf "qstart takes no arguments" [])
    else .ok opts
  else .error (sprintf "unknown command %q" [opts.command])

/-! ## Collaborators -/

/-- A parsed `*url.URL`, kept as the text it prints as. -/
structure URL where
  text : String
deriving DecidableEq, Repr

/-- An `*x509.Certificate`; only its DER bytes `Raw` are used. -/
structure X509Certificate where
  Raw : String
deriving DecidableEq, Repr

/-- A `tls.Certificate`: the chain of DER-encoded certificates of a key pair. -/
structure Certificate where
  Certificate : List String
deriving DecidableEq, Repr

/-- An `*x509.CertPool`: the certificates it holds. -/
structure CertPool where
  certs : List X509Certificate
deriving DecidableEq, Repr

/-- The fields of `tls.Config` that `tlsConfig` sets; `RootCAs = none` is the nil pool. -/
structure TLSConfig where
  ServerName : String
  Certificates : List Certificate
  InsecureSkipVerify : Bool
  RootCAs : Option CertPool
deriving DecidableEq, Repr

/-- The fields of `backoff.ExponentialBackOff` that `expBackoff` sets, and the randomization
factor (a `float64` bit pattern) it leaves at its default. -/
structure ExponentialBackOff where
  InitialInterval : Int
  RandomizationFactor : Nat
  Multiplier : Nat
  MaxInterval : Int
  MaxElapsedTime : Int
deriving DecidableEq, Repr

/-- The struct `proto.Tunnel` as built by `tunnels`. -/
structure ProtoTunnel where
  Protocol : String
  Host : String
  Auth : String
  Addr : String
deriving DecidableEq, Repr

/-- The two tables `proxy` hands to `tunnel.NewMultiHTTPProxy` and `tunnel.NewMultiTCPProxy`. -/
structure ProxyTables where
  httpURL : GoMap URL
  tcpAddr : GoMap String
deriving DecidableEq, Repr

/-- The struct `tunnel.ClientConfig` passed to `tunnel.NewClient`; a nil `*tls.Config` is
`none`. -/
structure RuntimeConfig where
  ServerAddr : String
  TLSClientConfig : Option TLSConfig
  Backoff : ExponentialBackOff
  Tunnels : GoMap ProtoTunnel
  Proxy : ProxyTables
deriving DecidableEq, Repr

/-- The protocol names of package `proto`, whose declaration is not among the sources. -/
structure ProtoConsts where
  HTTP : String
  TCP : String
  TCP4 : String
  TCP6 : String
  SNI : String
deriving DecidableEq, Repr

/-- The five protocol names are pairwise different, as the constant cases of one Go
`switch` must be. -/
def ProtoConsts.Distinct (p : ProtoConsts) : Prop :=
  [p.HTTP, p.TCP, p.TCP4, p.TCP6, p.SNI].Nodup

instance (p : ProtoConsts) : Decidable p.Distinct := by
  unfold ProtoConsts.Distinct; infer_instance

/-- Everything `main` calls outside `options.go` and `tunnel.go`.  An error result is the
text of the Go `error`. -/
structure Env where
  /-- `fmt.Sprintf`. -/
  sprintf : String → List String → String
  /-- The package variable `version`. -/
  version : String
  /-- The protocol names of package `proto`. -/
  proto : ProtoConsts
  /-- The config loader `loadClientConfigFromFile`. -/
  loadClientConfigFromFile : String → Except String ClientConfig
  /-- `tls.X509KeyPair` applied to the embedded `crt` and `key`. -/
  X509KeyPair : Except String Certificate
  /-- `x509.ParseCertificate`. -/
  ParseCertificate : String → Except String X509Certificate
  /-- `id.New` followed by the `String` method `fmt.Println` applies. -/
  idNew : String → String
  /-- `ioutil.ReadFile`: the file system. -/
  ReadFile : String → Except String String
  /-- The certificates that `AppendCertsFromPEM` parses successfully out of PEM data. -/
  pemCertificates : String → List X509Certificate
  /-- `net.SplitHostPort`. -/
  SplitHostPort : String → Except String (String × String)
  /-- `url.Parse`. -/
  urlParse : String → Except String URL
  /-- `yaml.Marshal` of the client configuration. -/
  yamlMarshal : ClientConfig → Except String String
  /-- `backoff.NewExponentialBackOff`. -/
  NewExponentialBackOff : ExponentialBackOff
  /-- `tunnel.NewClient`: the error it returns, if any. -/
  NewClient : RuntimeConfig → Option String
  /-- The method `Start` of the created client: the error it returns, if any. -/
  Start : RuntimeConfig → Option String

/-- The process-level effects of `main`. -/
inductive Event where
  /-- The usage text printed by `flag.Usage()`. -/
  | usage
  /-- One `fmt.Println` to standard output. -/
  | stdout (line : String)
  /-- One write to standard error. -/
  | stderr (text : String)
  /-- The call `os.Exit(code)`. -/
  | exit (code : Nat)
  /-- The call `loadClientConfigFromFile(path)`. -/
  | loadConfig (path : String)
  /-- The call `logger.Log(key, value)`. -/
  | log (key : String) (value : String)
  /-- The call `tunnel.NewClient(cfg)`. -/
  | newClient (cfg : RuntimeConfig)
  /-- The call `client.Start()` on the client created from `cfg`. -/
  | start (cfg : RuntimeConfig)
  /-- A Go run-time panic. -/
  | panic
deriving DecidableEq, Repr

/-! ## `tunnel.go` -/

/-- `fatal`: print the formatted message and a newline to standard error, then `os.Exit(1)`. -/
def fatal (env : Env) (format : String) (a : List String) : List Event :=
  [.stderr (env.sprintf format a), .stderr "\n", .exit 1]

/-- `strconv.Itoa`. -/
def Itoa (i : Int) : String :=
  if i < 0 then "-" ++ Nat.repr i.natAbs else Nat.repr i.natAbs

/-- The bytes of a Go string: the UTF-8 encoding, each byte as a number. -/
def goBytes (s : String) : List Nat :=
  (s.data.flatMap String.utf8EncodeChar).map UInt8.toNat

/-- Lexicographic `<=` on byte sequences. -/
def bytesLE : List Nat → List Nat → Bool
  | [], _ => true
  | _ :: _, [] => false
  | x :: xs, y :: ys => if x < y then true else if y < x then false else bytesLE xs ys

/-- Go's `a <= b` on strings: the byte-wise lexicographic order. -/
def stringLE (a b : String) : Prop := bytesLE (goBytes a) (goBytes b) = true

instance (a b : String) : Decidable (stringLE a b) := by
  unfold stringLE; infer_instance

/-- `sort.Strings`: ascending byte-wise order, by insertion. -/
def sortStrings (names : List String) : List String :=
  names.insertionSort stringLE

/-- `x509.NewCertPool()`. -/
def NewCertPool : CertPool := ⟨[]⟩

/-- `(*CertPool).AppendCertsFromPEM`: adds the certificates that parse and reports whether
there was at least one. -/
def AppendCertsFromPEM (env : Env) (roots : CertPool) (pem : String) : CertPool × Bool :=
  let found := env.pemCertificates pem
  (⟨roots.certs ++ found⟩, !found.isEmpty)

/-- The tail of `tlsConfig` (from `net.SplitHostPort` on), for the pool `roots`. -/
def tlsConfigFinish (env : Env) (config : ClientConfig) (cert : Certificate)
    (roots : Option CertPool) : Option TLSConfig × Option String :=
  match env.SplitHostPort config.ServerAddr with
  | .error err => (none, some err)
  | .ok (host, _) =>
    (some { ServerName := host, Certificates := [cert],
            InsecureSkipVerify := roots.isNone, RootCAs := roots }, none)

/-- `tlsConfig`: the pair `(*tls.Config, error)` it returns, `none` being nil.  In the branch
where `AppendCertsFromPEM` reports false the source returns the variable `err` of the
preceding `ReadFile`, which is nil there. -/
def tlsConfig (env : Env) (config : ClientConfig) : Option TLSConfig × Option String :=
  match env.X509KeyPair with
  | .error err => (none, some err)
  | .ok cert =>
    if config.RootCA ≠ "" then
      match env.ReadFile config.RootCA with
      | .error err => (none, some err)
      | .ok rootPEM =>
        let err : Option String := none
        let (roots, ok) := AppendCertsFromPEM env NewCertPool rootPEM
        if !ok then (none, err)
        else tlsConfigFinish env config cert (some roots)
    else tlsConfigFinish env config cert none

/-- `expBackoff`. -/
def expBackoff (env : Env) (c : BackoffConfig) : ExponentialBackOff :=
  { env.NewExponentialBackOff with
    InitialInterval := c.Interval, Multiplier := c.Multiplier,
    MaxInterval := c.MaxInterval, MaxElapsedTime := c.MaxTime }

/-- `tunnels`. -/
def tunnels (m : GoMap Tunnel) : GoMap ProtoTunnel :=
  m.foldl (fun p nt => mapSet p nt.1
    { Protocol := nt.2.Protocol, Host := nt.2.Host, Auth := nt.2.Auth, Addr := nt.2.RemoteAddr })
    []

/-- The loop of `proxy` over the entries still to visit, with the two tables built so far.
A `url.Parse` failure ends the process through `fatal`; its trace is the error value. -/
def proxyLoop (env : Env) :
    List (String × Tunnel) → GoMap URL → GoMap String → Except (List Event) ProxyTables
  | [], httpURL, tcpAddr => .ok ⟨httpURL, tcpAddr⟩
  | (_, t) :: rest, httpURL, tcpAddr =>
    if t.Protocol = env.proto.HTTP then
      match env.urlParse t.Addr with
      | .error err => .error (fatal env "invalid tunnel address: %s" [err])
      | .ok u => proxyLoop env rest (mapSet httpURL t.Host u) tcpAddr
    else if t.Protocol = env.proto.TCP ∨ t.Protocol = env.proto.TCP4
        ∨ t.Protocol = env.proto.TCP6 then
      proxyLoop env rest httpURL (mapSet tcpAddr t.RemoteAddr t.Addr)
    else if t.Protocol = env.proto.SNI then
      proxyLoop env rest httpURL (mapSet tcpAddr t.Host t.Addr)
    else proxyLoop env rest httpURL tcpAddr

/-- `proxy`: both tables start empty. -/
def proxy (env : Env) (m : GoMap Tunnel) : Except (List Event) ProxyTables :=
  proxyLoop env m [] []

/-- Lines 93-116 of `main`: load the configuration, or synthesize it for `qstart`.  The
result is the trace of the step and the configuration, `none` after `fatal`. -/
def mainConfig (env : Env) (opts : options) : List Event × Option ClientConfig :=
  if opts.command ≠ "qstart" then
    match env.loadClientConfigFromFile opts.config with
    | .error err =>
      (.loadConfig opts.config :: fatal env "configuration error: %s" [err], none)
    | .ok config => ([.loadConfig opts.config], some config)
  else
    let urlProto := if opts.protocol = "tcp" then "tcp" else "http"
    ([], some
      { ServerAddr := "tunnel.arumiot.com:5223", RootCA := "", Backoff := BackoffConfig.zero,
        Tunnels := [("webui",
          { Protocol := opts.protocol, Host := opts.host,
            Addr := urlProto ++ "://localhost:" ++ Itoa opts.port,
            Auth := "", RemoteAddr := "" })] })

/-- The loop of the `start` case (lines 146-153): look every argument up in the loaded
tunnels and collect it; the first miss ends the process through `fatal`. -/
def startLoop (env : Env) (loaded : GoMap Tunnel) :
    List String → GoMap Tunnel → Except (List Event) (GoMap Tunnel)
  | [], tunnels => .ok tunnels
  | arg :: rest, tunnels =>
    match mapGet loaded arg with
    | none => .error (fatal env "no such tunnel %q" [arg])
    | some t => startLoop env loaded rest (mapSet tunnels arg t)

/-- Lines 118-155 of `main`, the `switch` on the command.  The result is the trace of the
step and the configuration the rest of `main` goes on with; `none` when `main` has returned
(`id`, `list`) or the process has exited. -/
def mainCommand (env : Env) (opts : options) (config : ClientConfig) :
    List Event × Option ClientConfig :=
  if opts.command = "id" then
    match env.X509KeyPair with
    | .error err => (fatal env "failed to load key pair: %s" [err], none)
    | .ok cert =>
      match cert.Certificate with
      | [] => ([.panic], none)
      | der :: _ =>
        match env.ParseCertificate der with
        | .error err => (fatal env "failed to parse certificate: %s" [err], none)
        | .ok x509Cert => ([.stdout (env.idNew x509Cert.Raw)], none)
  else if opts.command = "list" then
    let names := mapKeys config.Tunnels
    ((sortStrings names).map .stdout, none)
  else if opts.command = "start" then
    match startLoop env config.Tunnels opts.args [] with
    | .error ev => (ev, none)
    | .ok tunnels => ([], some { config with Tunnels := tunnels })
  else ([], some config)

/-- Lines 157-186 of `main`: the emptiness check, the TLS configuration, the dump of the
configuration, the creation and the start of the client. -/
def mainStart (env : Env) (config : ClientConfig) : List Event :=
  if mapLen config.Tunnels = 0 then fatal env "no tunnels" []
  else
    match tlsConfig env config with
    | (_, some err) => fatal env "failed to configure tls: %s" [err]
    | (tlsconf, none) =>
      match env.yamlMarshal config with
      | .error err => fatal env "failed to dump config: %s" [err]
      | .ok b =>
        .log "config" b ::
        match proxy env config.Tunnels with
        | .error ev => ev
        | .ok p =>
          let cc : RuntimeConfig :=
            { ServerAddr := config.ServerAddr, TLSClientConfig := tlsconf,
              Backoff := expBackoff env config.Backoff, Tunnels := tunnels config.Tunnels,
              Proxy := p }
          .newClient cc ::
          match env.NewClient cc with
          | some err => fatal env "failed to create client: %s" [err]
          | none =>
            .start cc ::
            match env.Start cc with
            | some err => fatal env "failed to start tunnels: %s" [err]
            | none => []

/-- `main`: the trace of one run on the parsed command line `cl`. -/
def main (env : Env) (cl : CmdLine) : List Event :=
  match parseArgs env.sprintf cl with
  | .usageExit => [.usage, .exit 2]
  | .error err => fatal env err []
  | .ok opts =>
    if opts.version then [.stdout env.version]
    else
      match mainConfig env opts with
      | (ev, none) => ev
      | (ev, some config) =>
        match mainCommand env opts config with
        | (ev', none) => ev ++ ev'
        | (ev', some config') => ev ++ ev' ++ mainStart env config'

/-! ## A concrete environment for examples -/

/-- A rendering of format strings good enough for examples: the operands are appended. -/
def demoSprintf (format : String) (a : List String) : String :=
  a.foldl (fun s x => s ++ " " ++ x) format

/-- The protocol names as the upstream package `proto` spells them. -/
def demoProto : ProtoConsts := ⟨"http", "tcp", "tcp4", "tcp6", "sni"⟩

/-- A splitting of `host:port` at the last colon, good enough for examples. -/
def demoSplitHostPort (addr : String) : Except String (String × String) :=
  match addr.data.reverse.span (fun c => c ≠ ':') with
  | (_, []) => .error "missing port in address"
  | (port, _ :: host) => .ok (String.mk host.reverse, String.mk port.reverse)

/-- An environment over a file system with the configuration `cfg` at `tunnel.yml`, an
empty file `empty.pem` and a one-certificate file `ca.pem`. -/
def demoEnv (cfg : ClientConfig) : Env where
  sprintf := demoSprintf
  version := "dev"
  proto := demoProto
  loadClientConfigFromFile := fun path =>
    if path = "tunnel.yml" then .ok cfg else .error "no such file"
  X509KeyPair := .ok ⟨["der"]⟩
  ParseCertificate := fun der => .ok ⟨der⟩
  idNew := fun raw => "ID-" ++ raw
  ReadFile := fun path =>
    if path = "empty.pem" then .ok ""
    else if path = "ca.pem" then .ok "CERT" else .error "no such file"
  pemCertificates := fun pem => if pem = "CERT" then [⟨"ca"⟩] else []
  SplitHostPort := demoSplitHostPort
  urlParse := fun s => if ' ' ∈ s.data then .error "invalid character" else .ok ⟨s⟩
  yamlMarshal := fun _ => .ok "yaml"
  NewExponentialBackOff := ⟨500, 0, 0, 60000, 900000⟩
  NewClient := fun _ => none
  Start := fun _ => none

/-- The flag defaults of `parseArgs` with the given positional arguments. -/
def demoCmdLine (positional : List String) : CmdLine :=
  { config := "tunnel.yml", host := "hookurl.arumiot.com", port := 8000, protocol := "http",
    logLevel := 1, version := false, positional := positional }

/-- A configuration with the tunnels `b` (HTTP), `a` (TCP) and `c` (SNI), iterated in that
order. -/
def demoConfig : ClientConfig :=
  { ServerAddr := "relay.example.com:5223", RootCA := "", Backoff := BackoffConfig.zero,
    Tunnels :=
      [("b", { Protocol := "http", Addr := "http://localhost:8080", Auth := "",
               Host := "b.example.com", RemoteAddr := "" }),
       ("a", { Protocol := "tcp", Addr := "localhost:22", Auth := "",
               Host := "", RemoteAddr := "0.0.0.0:2222" }),
       ("c", { Protocol := "sni", Addr := "localhost:443", Auth := "",
               Host := "c.example.com", RemoteAddr := "" })] }

/-- The options `parseArgs` returns for the command `command` with arguments `args` and the
default flags. -/
def demoOptions (command : String) (args : List String) : options :=
  { config := "tunnel.yml", logLevel := 1, version := false, command := command,
    host := "hookurl.arumiot.com", port := 8000, protocol := "http", args := args }

/-- The demo configuration without any tunnel. -/
def demoEmptyConfig : ClientConfig := { demoConfig with Tunnels := [] }

/-- The demo configuration with a root-CA file that holds no certificate. -/
def demoEmptyCAConfig : ClientConfig := { demoConfig with RootCA := "empty.pem" }

/-- The demo configuration with a root-CA file that holds one certificate. -/
def demoCAConfig : ClientConfig := { demoConfig with RootCA := "ca.pem" }

/-- The demo configuration with a root-CA path at which there is no file. -/
def demoMissingCAConfig : ClientConfig := { demoConfig with RootCA := "missing.pem" }

/-- What `main` hands to `tunnel.NewClient` for the demo configuration with all of its
tunnels, for a given TLS configuration. -/
def demoRuntimeConfig (tlsconf : Option TLSConfig) : RuntimeConfig :=
  { ServerAddr := "relay.example.com:5223", TLSClientConfig := tlsconf,
    Backoff := ⟨0, 0, 0, 0, 0⟩,
    Tunnels :=
      [("b", { Protocol := "http", Host := "b.example.com", Auth := "", Addr := "" }),
       ("a", { Protocol := "tcp", Host := "", Auth := "", Addr := "0.0.0.0:2222" }),
       ("c", { Protocol := "sni", Host := "c.example.com", Auth := "", Addr := "" })],
    Proxy :=
      { httpURL := [("b.example.com", ⟨"http://localhost:8080"⟩)],
        tcpAddr := [("0.0.0.0:2222", "localhost:22"), ("c.example.com", "localhost:443")] } }

/-- The key under which the loop of `proxy` writes the address of the definition `t` into
`tcpAddr`, if it writes one: the `switch` of `proxy`, read for the table `tcpAddr` alone. -/
def tcpKey (env : Env) (t : Tunnel) : Option String :=
  if t.Protocol = env.proto.HTTP then none
  else if t.Protocol = env.proto.TCP ∨ t.Protocol = env.proto.TCP4
      ∨ t.Protocol = env.proto.TCP6 then some t.RemoteAddr
  else if t.Protocol = env.proto.SNI then some t.Host
  else none

/-- A map with a TCP definition and an SNI definition whose host is the remote address of
the TCP definition, iterated in that order. -/
def demoClashTunnels : GoMap Tunnel :=
  [("ssh", { Protocol := "tcp", Addr := "localhost:22", Auth := "",
             Host := "", RemoteAddr := "gate" }),
   ("tls", { Protocol := "sni", Addr := "localhost:443", Auth := "",
             Host := "gate", RemoteAddr := "" })]

/-- A map with two HTTP definitions of the same host, iterated in that order. -/
def demoSameHostTunnels : GoMap Tunnel :=
  [("one", { Protocol := "http", Addr := "http://localhost:8080", Auth := "",
             Host := "www.example.com", RemoteAddr := "" }),
   ("two", { Protocol := "http", Addr := "http://localhost:9090", Auth := "",
             Host := "www.example.com", RemoteAddr := "" })]

/-! # Theorems -/

/-! ## Lemmas on Go maps -/

theorem mapGet_mapSet {V : Type} (m : GoMap V) (k k' : String) (v : V) :
    mapGet (mapSet m k v) k' = if k = k' then some v else mapGet m k' := by
  induction m with
  | nil => simp [mapSet, mapGet]
  | cons e rest ih =>
    obtain ⟨k0, v0⟩ := e
    by_cases h0 : k0 = k
    · subst h0
      by_cases h1 : k0 = k' <;> simp [mapSet, mapGet, h1]
    · by_cases h1 : k0 = k'
      · subst h1
        have h2 : ¬ k = k0 := fun h => h0 h.symm
        simp [mapSet, mapGet, h0, h2]
      · simp [mapSet, mapGet, h0, h1, ih]

theorem mem_mapKeys_mapSet {V : Type} (m : GoMap V) (k k' : String) (v : V) :
    k' ∈ mapKeys (mapSet m k v) ↔ k' = k ∨ k' ∈ mapKeys m := by
  induction m with
  | nil => simp [mapSet, mapKeys]
  | cons e rest ih =>
    obtain ⟨k0, v0⟩ := e
    by_cases h0 : k0 = k
    · subst h0; simp [mapSet, mapKeys]
    · have ih' : k' ∈ List.map Prod.fst (mapSet rest k v) ↔ k' = k ∨ k' ∈ List.map Prod.fst rest := ih
      simp only [mapSet, h0, if_false, mapKeys, List.map_cons, List.mem_cons, ih']
      tauto

theorem nodup_mapKeys_mapSet {V : Type} (m : GoMap V) (k : String) (v : V)
    (h : (mapKeys m).Nodup) : (mapKeys (mapSet m k v)).Nodup := by
  induction m with
  | nil => simp [mapSet, mapKeys]
  | cons e rest ih =>
    obtain ⟨k0, v0⟩ := e
    have hcons : k0 ∉ mapKeys rest ∧ (mapKeys rest).Nodup := by
      simpa [mapKeys] using h
    by_cases h0 : k0 = k
    · subst h0
      simpa [mapSet, mapKeys] using h
    · have hmem : k0 ∉ mapKeys (mapSet rest k v) := by
        rw [mem_mapKeys_mapSet]
        rintro (h1 | h1)
        · exact h0 h1
        · exact hcons.1 h1
      have hnd := ih hcons.2
      simp only [mapSet, h0, if_false]
      exact List.nodup_cons.mpr ⟨hmem, hnd⟩

theorem mapGet_eq_none_iff {V : Type} (m : GoMap V) (k : String) :
    mapGet m k = none ↔ k ∉ mapKeys m := by
  induction m with
  | nil => simp [mapGet, mapKeys]
  | cons e rest ih =>
    obtain ⟨k0, v0⟩ := e
    by_cases h0 : k0 = k
    · subst h0; simp [mapGet, mapKeys]
    · have h1 : ¬ k = k0 := fun h => h0 h.symm
      have ih' : mapGet rest k = none ↔ k ∉ List.map Prod.fst rest := ih
      simp [mapGet, mapKeys, h0, h1, ih']

/-! ## `parseArgs` -/

/-- C1: with the version flag unset and a non-empty first positional token `cmd` followed by
the tokens `rest`, `parseArgs` succeeds exactly when `cmd` is one of `id`, `list`, `start-all`,
`qstart` and `rest` is empty, or `cmd` is `start` and `rest` is not empty; in every other case
it returns an error (and no options); on success the returned `args` are `rest`. -/
theorem parseArgs_succeeds_iff (sprintf : String → List String → String) (cl : CmdLine)
    (cmd : String) (rest : List String)
    (hv : cl.version = false) (hp : cl.positional = cmd :: rest) (hc : cmd ≠ "") :
    ((∃ opts, parseArgs sprintf cl = .ok opts) ↔
      (((cmd = "id" ∨ cmd = "list" ∨ cmd = "start-all" ∨ cmd = "qstart") ∧ rest = [])
        ∨ (cmd = "start" ∧ rest ≠ [])))
    ∧ (¬ (((cmd = "id" ∨ cmd = "list" ∨ cmd = "start-all" ∨ cmd = "qstart") ∧ rest = [])
        ∨ (cmd = "start" ∧ rest ≠ [])) → ∃ err, parseArgs sprintf cl = .error err)
    ∧ (∀ opts, parseArgs sprintf cl = .ok opts → opts.args = rest ∧ opts.command = cmd) := by
  have key :
      ((((cmd = "id" ∨ cmd = "list" ∨ cmd = "start-all" ∨ cmd = "qstart") ∧ rest = [])
          ∨ (cmd = "start" ∧ rest ≠ []))
        ∧ ∃ opts, parseArgs sprintf cl = .ok opts ∧ opts.args = rest ∧ opts.command = cmd)
      ∨ (¬ (((cmd = "id" ∨ cmd = "list" ∨ cmd = "start-all" ∨ cmd = "qstart") ∧ rest = [])
          ∨ (cmd = "start" ∧ rest ≠ []))
        ∧ ∃ err, parseArgs sprintf cl = .error err) := by
    unfold parseArgs
    simp only [flagArg0, hp, hv, List.drop_succ_cons, List.drop_zero]
    by_cases h1 : cmd = "id"
    · subst h1; cases rest <;> simp
    by_cases h2 : cmd = "list"
    · subst h2; cases rest <;> simp
    by_cases h3 : cmd = "start"
    · subst h3; cases rest <;> simp
    by_cases h4 : cmd = "start-all"
    · subst h4; cases rest <;> simp
    by_cases h5 : cmd = "qstart"
    · subst h5; cases rest <;> simp
    · simp [hc, h1, h2, h3, h4, h5]
  rcases key with ⟨hval, opts, hok, hargs⟩ | ⟨hnot, err, herr⟩
  · refine ⟨⟨fun _ => hval, fun _ => ⟨opts, hok⟩⟩, fun h => absurd hval h, ?_⟩
    intro o ho
    rw [hok] at ho
    cases ho
    exact hargs
  · refine ⟨⟨?_, fun h => absurd h hnot⟩, fun _ => ⟨err, herr⟩, ?_⟩
    · rintro ⟨o, ho⟩; rw [herr] at ho; cases ho
    · intro o ho; rw [herr] at ho; cases ho

/-- Witness for C1: `start web api` with the default flags. -/
theorem parseArgs_succeeds_iff_witness :
    (demoCmdLine ["start", "web", "api"]).version = false
    ∧ (∃ opts, parseArgs demoSprintf (demoCmdLine ["start", "web", "api"]) = .ok opts)
    ∧ (∀ opts, parseArgs demoSprintf (demoCmdLine ["start", "web", "api"]) = .ok opts →
        opts.args = ["web", "api"] ∧ opts.command = "start") :=
  have h := parseArgs_succeeds_iff demoSprintf (demoCmdLine ["start", "web", "api"])
    "start" ["web", "api"] rfl rfl (by decide)
  ⟨rfl, h.1.mpr (Or.inr ⟨rfl, by simp⟩), h.2.2⟩

/-! ## The `start` command -/

theorem parseArgs_start (sprintf : String → List String → String) (cl : CmdLine)
    (a : String) (r : List String) (hv : cl.version = false)
    (hp : cl.positional = "start" :: a :: r) :
    parseArgs sprintf cl = .ok
      { config := cl.config, logLevel := cl.logLevel, version := false, command := "start",
        host := cl.host, port := cl.port, protocol := cl.protocol, args := a :: r } := by
  unfold parseArgs
  simp [flagArg0, hp, hv]

theorem exists_first_missing {V : Type} (loaded : GoMap V) (args : List String)
    (h : ∃ a ∈ args, a ∉ mapKeys loaded) :
    ∃ pre miss post, args = pre ++ miss :: post ∧ (∀ a ∈ pre, a ∈ mapKeys loaded)
      ∧ miss ∉ mapKeys loaded := by
  induction args with
  | nil => simp at h
  | cons x xs ih =>
    by_cases hx : x ∈ mapKeys loaded
    · have h' : ∃ a ∈ xs, a ∉ mapKeys loaded := by
        obtain ⟨a, ha, hna⟩ := h
        rcases List.mem_cons.mp ha with rfl | ha'
        · exact absurd hx hna
        · exact ⟨a, ha', hna⟩
      obtain ⟨pre, miss, post, hxs, hpre, hmiss⟩ := ih h'
      refine ⟨x :: pre, miss, post, by simp [hxs], ?_, hmiss⟩
      intro a ha
      rcases List.mem_cons.mp ha with rfl | ha'
      · exact hx
      · exact hpre a ha'
    · exact ⟨[], x, xs, rfl, by simp, hx⟩

theorem startLoop_miss (env : Env) (loaded : GoMap Tunnel) (pre : List String) (miss : String)
    (post : List String) (acc : GoMap Tunnel) (hpre : ∀ a ∈ pre, a ∈ mapKeys loaded)
    (hmiss : miss ∉ mapKeys loaded) :
    startLoop env loaded (pre ++ miss :: post) acc
      = .error (fatal env "no such tunnel %q" [miss]) := by
  induction pre generalizing acc with
  | nil =>
    have h := (mapGet_eq_none_iff loaded miss).mpr hmiss
    simp [startLoop, h]
  | cons x xs ih =>
    have hx : x ∈ mapKeys loaded := hpre x (List.mem_cons_self _ _)
    have hne : mapGet loaded x ≠ none := fun h => (mapGet_eq_none_iff loaded x).mp h hx
    obtain ⟨t, ht⟩ := Option.ne_none_iff_exists'.mp hne
    have hxs : ∀ a ∈ xs, a ∈ mapKeys loaded := fun a ha => hpre a (List.mem_cons_of_mem _ ha)
    simp [startLoop, ht, ih _ hxs]

theorem startLoop_ok (env : Env) (loaded : GoMap Tunnel) (args : List String)
    (acc : GoMap Tunnel) (hall : ∀ a ∈ args, a ∈ mapKeys loaded) :
    ∃ r, startLoop env loaded args acc = .ok r
      ∧ (∀ k, k ∈ mapKeys r ↔ k ∈ mapKeys acc ∨ k ∈ args)
      ∧ ((mapKeys acc).Nodup → (mapKeys r).Nodup)
      ∧ (∀ k, mapGet r k = if k ∈ args then mapGet loaded k else mapGet acc k) := by
  induction args generalizing acc with
  | nil => exact ⟨acc, rfl, by simp, id, by simp⟩
  | cons x xs ih =>
    have hx : x ∈ mapKeys loaded := hall x (List.mem_cons_self _ _)
    have hne : mapGet loaded x ≠ none := fun h => (mapGet_eq_none_iff loaded x).mp h hx
    obtain ⟨t, ht⟩ := Option.ne_none_iff_exists'.mp hne
    have hxs : ∀ a ∈ xs, a ∈ mapKeys loaded := fun a ha => hall a (List.mem_cons_of_mem _ ha)
    obtain ⟨r, hr, hkeys, hnd, hget⟩ := ih (mapSet acc x t) hxs
    refine ⟨r, by simp [startLoop, ht, hr], ?_, ?_, ?_⟩
    · intro k
      rw [hkeys, mem_mapKeys_mapSet, List.mem_cons]
      tauto
    · intro h
      exact hnd (nodup_mapKeys_mapSet acc x t h)
    · intro k
      rw [hget k, mapGet_mapSet]
      by_cases hk : k ∈ xs
      · simp [hk]
      · by_cases hkx : x = k
        · subst hkx; simp [hk, ht]
        · have hkx' : ¬ k = x := fun h => hkx h.symm
          simp [hk, hkx, hkx']

/-- C3: when at least one name requested with `start` is not a key of the loaded tunnels, the
run is the loader call followed by `fatal` with the message `no such tunnel` for the first
requested name that is missing: every name before it is a key, and nothing follows the exit.
The `switch` yields no configuration to go on with. -/
theorem main_start_missing_tunnel (env : Env) (cl : CmdLine) (config : ClientConfig)
    (args : List String) (hv : cl.version = false) (hp : cl.positional = "start" :: args)
    (hload : env.loadClientConfigFromFile cl.config = .ok config)
    (hmiss : ∃ a ∈ args, a ∉ mapKeys config.Tunnels) :
    ∃ pre miss post, args = pre ++ miss :: post
      ∧ (∀ a ∈ pre, a ∈ mapKeys config.Tunnels)
      ∧ miss ∉ mapKeys config.Tunnels
      ∧ main env cl =
          [.loadConfig cl.config, .stderr (env.sprintf "no such tunnel %q" [miss]),
           .stderr "\n", .exit 1]
      ∧ (∀ opts, parseArgs env.sprintf cl = .ok opts →
          mainCommand env opts config = (fatal env "no such tunnel %q" [miss], none)) := by
  obtain ⟨pre, miss, post, hargs, hpre, hm⟩ := exists_first_missing config.Tunnels args hmiss
  refine ⟨pre, miss, post, hargs, hpre, hm, ?_⟩
  have hloop := startLoop_miss env config.Tunnels pre miss post [] hpre hm
  obtain ⟨a, r, har⟩ : ∃ a r, args = a :: r := by
    cases args with
    | nil => simp at hmiss
    | cons a r => exact ⟨a, r, rfl⟩
  have hparse := parseArgs_start env.sprintf cl a r hv (by rw [hp, har])
  have hcmd : mainCommand env
      { config := cl.config, logLevel := cl.logLevel, version := false, command := "start",
        host := cl.host, port := cl.port, protocol := cl.protocol, args := a :: r } config
      = (fatal env "no such tunnel %q" [miss], none) := by
    unfold mainCommand
    simp only [← har, hargs, hloop]
    simp
  constructor
  · unfold main
    rw [hparse]
    simp [mainConfig, hload, hcmd, fatal]
  · intro opts ho
    rw [hparse] at ho
    cases ho
    exact hcmd

/-- Witness for C3: `start a zz b` on the demo configuration, where `zz` is missing. -/
theorem main_start_missing_tunnel_witness :
    (∃ a ∈ ["a", "zz", "b"], a ∉ mapKeys demoConfig.Tunnels)
    ∧ ∃ pre miss post, ["a", "zz", "b"] = pre ++ miss :: post
      ∧ (∀ a ∈ pre, a ∈ mapKeys demoConfig.Tunnels)
      ∧ miss ∉ mapKeys demoConfig.Tunnels
      ∧ main (demoEnv demoConfig) (demoCmdLine ["start", "a", "zz", "b"]) =
          [.loadConfig "tunnel.yml", .stderr (demoSprintf "no such tunnel %q" [miss]),
           .stderr "\n", .exit 1]
      ∧ (∀ opts, parseArgs demoSprintf (demoCmdLine ["start", "a", "zz", "b"]) = .ok opts →
          mainCommand (demoEnv demoConfig) opts demoConfig
            = (fatal (demoEnv demoConfig) "no such tunnel %q" [miss], none)) :=
  ⟨⟨"zz", by decide, by decide⟩,
   main_start_missing_tunnel (demoEnv demoConfig) (demoCmdLine ["start", "a", "zz", "b"])
     demoConfig ["a", "zz", "b"] rfl rfl rfl ⟨"zz", by decide, by decide⟩⟩

/-- C4: when every name requested with `start` is a key of the loaded tunnels, the `switch`
goes on with a configuration whose tunnel keys are exactly the requested names, each once,
every requested name mapped to the definition the loaded configuration maps it to, and with
`ServerAddr`, `RootCA` and `Backoff` unchanged; `main` continues with that configuration. -/
theorem mainCommand_start_resolves (env : Env) (opts : options) (config : ClientConfig)
    (hcmd : opts.command = "start")
    (hall : ∀ a ∈ opts.args, a ∈ mapKeys config.Tunnels) :
    ∃ resolved, mainCommand env opts config = ([], some resolved)
      ∧ (∀ k, k ∈ mapKeys resolved.Tunnels ↔ k ∈ opts.args)
      ∧ (mapKeys resolved.Tunnels).Nodup
      ∧ (∀ k ∈ opts.args, mapGet resolved.Tunnels k = mapGet config.Tunnels k)
      ∧ resolved.ServerAddr = config.ServerAddr
      ∧ resolved.RootCA = config.RootCA
      ∧ resolved.Backoff = config.Backoff
      ∧ (∀ cl, parseArgs env.sprintf cl = .ok opts → opts.version = false →
          env.loadClientConfigFromFile opts.config = .ok config →
          main env cl = .loadConfig opts.config :: mainStart env resolved) := by
  obtain ⟨t, ht, hkeys, hnd, hget⟩ := startLoop_ok env config.Tunnels opts.args [] hall
  have hres : mainCommand env opts config = ([], some { config with Tunnels := t }) := by
    unfold mainCommand
    simp [hcmd, ht]
  refine ⟨{ config with Tunnels := t }, hres, ?_, ?_, ?_, rfl, rfl, rfl, ?_⟩
  · intro k
    simpa [mapKeys] using hkeys k
  · exact hnd (by simp [mapKeys])
  · intro k hk
    simp [hget k, hk]
  · intro cl hparse hver hload
    unfold main
    rw [hparse]
    simp [hver, mainConfig, hcmd, hload, hres]

/-- Witness for C4: `start a c a` on the demo configuration. -/
theorem mainCommand_start_resolves_witness :
    (∀ a ∈ ["a", "c", "a"], a ∈ mapKeys demoConfig.Tunnels)
    ∧ ∃ resolved,
        mainCommand (demoEnv demoConfig) (demoOptions "start" ["a", "c", "a"]) demoConfig
          = ([], some resolved)
      ∧ (∀ k, k ∈ mapKeys resolved.Tunnels ↔ k ∈ ["a", "c", "a"])
      ∧ (mapKeys resolved.Tunnels).Nodup
      ∧ (∀ k ∈ ["a", "c", "a"], mapGet resolved.Tunnels k = mapGet demoConfig.Tunnels k)
      ∧ resolved.ServerAddr = demoConfig.ServerAddr
      ∧ resolved.RootCA = demoConfig.RootCA
      ∧ resolved.Backoff = demoConfig.Backoff
      ∧ (∀ cl, parseArgs demoSprintf cl = .ok (demoOptions "start" ["a", "c", "a"]) →
          (demoOptions "start" ["a", "c", "a"]).version = false →
          (demoEnv demoConfig).loadClientConfigFromFile "tunnel.yml" = .ok demoConfig →
          main (demoEnv demoConfig) cl
            = .loadConfig "tunnel.yml" :: mainStart (demoEnv demoConfig) resolved) :=
  ⟨by decide,
   mainCommand_start_resolves (demoEnv demoConfig) (demoOptions "start" ["a", "c", "a"])
     demoConfig rfl (by decide)⟩

/-! ## The emptiness check -/

/-- C5 (as the code has it): whenever the `switch` on the command goes on with a configuration
whose tunnel map is empty, the run ends right there with `fatal("no tunnels")`, before
anything of the TLS configuration or the routing tables; the command is then neither `id` nor
`list`, which return inside the `switch`. -/
theorem main_no_tunnels (env : Env) (cl : CmdLine) (opts : options)
    (config resolved : ClientConfig) (ev ev' : List Event)
    (hparse : parseArgs env.sprintf cl = .ok opts) (hver : opts.version = false)
    (hcfg : mainConfig env opts = (ev, some config))
    (hcmd : mainCommand env opts config = (ev', some resolved))
    (hempty : mapLen resolved.Tunnels = 0) :
    main env cl = ev ++ [.stderr (env.sprintf "no tunnels" []), .stderr "\n", .exit 1]
      ∧ ev' = []
      ∧ opts.command ≠ "id" ∧ opts.command ≠ "list" := by
  have hid : opts.command ≠ "id" := by
    intro h
    unfold mainCommand at hcmd
    simp only [h, if_true] at hcmd
    split at hcmd
    · cases hcmd
    · split at hcmd
      · cases hcmd
      · split at hcmd <;> cases hcmd
  have hlist : opts.command ≠ "list" := by
    intro h
    unfold mainCommand at hcmd
    simp [h] at hcmd
  have hev : ev' = [] := by
    unfold mainCommand at hcmd
    simp only [hid, hlist, if_false] at hcmd
    split at hcmd
    · split at hcmd
      · cases hcmd
      · cases hcmd; rfl
    · cases hcmd; rfl
  refine ⟨?_, hev, hid, hlist⟩
  unfold main
  rw [hparse]
  simp [hver, hcfg, hcmd, hev, mainStart, hempty, fatal]

/-- Witness for C5: `start-all` on a configuration without tunnels. -/
theorem main_no_tunnels_witness :
    mapLen demoEmptyConfig.Tunnels = 0
    ∧ main (demoEnv demoEmptyConfig) (demoCmdLine ["start-all"])
        = [.loadConfig "tunnel.yml"]
          ++ [.stderr (demoSprintf "no tunnels" []), .stderr "\n", .exit 1]
    ∧ ([] : List Event) = []
    ∧ (demoOptions "start-all" []).command ≠ "id"
    ∧ (demoOptions "start-all" []).command ≠ "list" :=
  ⟨rfl,
   main_no_tunnels (demoEnv demoEmptyConfig) (demoCmdLine ["start-all"])
     (demoOptions "start-all" []) demoEmptyConfig demoEmptyConfig [.loadConfig "tunnel.yml"] []
     (by decide) rfl (by decide) (by decide) rfl⟩

/-- C5, counterexample: on a configuration without tunnels `list` prints nothing and `id`
prints the identifier; both runs return from `main` without any exit and without any write
to standard error. -/
theorem main_list_id_empty_no_fatal :
    main (demoEnv demoEmptyConfig) (demoCmdLine ["list"]) = [.loadConfig "tunnel.yml"]
    ∧ main (demoEnv demoEmptyConfig) (demoCmdLine ["id"])
        = [.loadConfig "tunnel.yml", .stdout "ID-der"]
    ∧ mapLen demoEmptyConfig.Tunnels = 0 := by
  decide

/-! ## Quick start -/

theorem proxyLoop_error (env : Env) (rest : List (String × Tunnel)) (httpURL : GoMap URL)
    (tcpAddr : GoMap String) (ev : List Event)
    (h : proxyLoop env rest httpURL tcpAddr = .error ev) :
    ∃ err, ev = fatal env "invalid tunnel address: %s" [err] := by
  induction rest generalizing httpURL tcpAddr with
  | nil => simp [proxyLoop] at h
  | cons e rest ih =>
    obtain ⟨n, t⟩ := e
    unfold proxyLoop at h
    split at h
    · split at h
      · cases h; exact ⟨_, rfl⟩
      · exact ih _ _ h
    · split at h
      · exact ih _ _ h
      · split at h
        · exact ih _ _ h
        · exact ih _ _ h

theorem loadConfig_not_mem_mainStart (env : Env) (config : ClientConfig) (path : String) :
    Event.loadConfig path ∉ mainStart env config := by
  unfold mainStart
  split
  · simp [fatal]
  · split
    · simp [fatal]
    · split
      · simp [fatal]
      · split
        · rename_i ev hp
          obtain ⟨err, rfl⟩ := proxyLoop_error env _ _ _ ev hp
          simp [fatal]
        · simp only [List.mem_cons, not_or]
          refine ⟨by simp, by simp, ?_⟩
          split
          · simp [fatal]
          · split <;> simp [fatal]

/-- C7: for `qstart` the configuration is synthesized without any call of the loader: it has
the single tunnel `webui` with the protocol and host flags and the address
`tcp://localhost:<port>` when the protocol flag is `tcp` and `http://localhost:<port>`
otherwise, and the server address `tunnel.arumiot.com:5223`; the whole run of `main` has no
loader call either. -/
theorem mainConfig_qstart (env : Env) (opts : options) (hcmd : opts.command = "qstart") :
    mainConfig env opts = ([], some
      { ServerAddr := "tunnel.arumiot.com:5223", RootCA := "", Backoff := BackoffConfig.zero,
        Tunnels := [("webui",
          { Protocol := opts.protocol, Host := opts.host,
            Addr := (if opts.protocol = "tcp" then "tcp://localhost:" else "http://localhost:")
              ++ Itoa opts.port,
            Auth := "", RemoteAddr := "" })] })
    ∧ (∀ cl path, parseArgs env.sprintf cl = .ok opts →
        Event.loadConfig path ∉ main env cl) := by
  have hc : mainConfig env opts = ([], some
      { ServerAddr := "tunnel.arumiot.com:5223", RootCA := "", Backoff := BackoffConfig.zero,
        Tunnels := [("webui",
          { Protocol := opts.protocol, Host := opts.host,
            Addr := (if opts.protocol = "tcp" then "tcp://localhost:" else "http://localhost:")
              ++ Itoa opts.port,
            Auth := "", RemoteAddr := "" })] }) := by
    unfold mainConfig
    by_cases hp : opts.protocol = "tcp"
    · simp [hcmd, hp]
    · simp [hcmd, hp]
  refine ⟨hc, ?_⟩
  intro cl path hparse
  unfold main
  rw [hparse]
  by_cases hv : opts.version = true
  · simp [hv]
  · have hm : mainCommand env opts
        { ServerAddr := "tunnel.arumiot.com:5223", RootCA := "", Backoff := BackoffConfig.zero,
          Tunnels := [("webui",
            { Protocol := opts.protocol, Host := opts.host,
              Addr := (if opts.protocol = "tcp" then "tcp://localhost:"
                else "http://localhost:") ++ Itoa opts.port,
              Auth := "", RemoteAddr := "" })] }
        = ([], some
        { ServerAddr := "tunnel.arumiot.com:5223", RootCA := "", Backoff := BackoffConfig.zero,
          Tunnels := [("webui",
            { Protocol := opts.protocol, Host := opts.host,
              Addr := (if opts.protocol = "tcp" then "tcp://localhost:"
                else "http://localhost:") ++ Itoa opts.port,
              Auth := "", RemoteAddr := "" })] }) := by
      unfold mainCommand
      simp [hcmd]
    simp only [hv, hc, hm]
    simpa using loadConfig_not_mem_mainStart env _ path

/-- Witness for C7: `qstart` with the protocol flag `tcp` and the port flag 3000. -/
theorem mainConfig_qstart_witness :
    mainConfig (demoEnv demoConfig)
        { demoOptions "qstart" [] with protocol := "tcp", port := 3000, config := "none.yml" }
      = ([], some
        { ServerAddr := "tunnel.arumiot.com:5223", RootCA := "", Backoff := BackoffConfig.zero,
          Tunnels := [("webui",
            { Protocol := "tcp", Host := "hookurl.arumiot.com",
              Addr := "tcp://localhost:3000", Auth := "", RemoteAddr := "" })] }) :=
  (mainConfig_qstart (demoEnv demoConfig)
    { demoOptions "qstart" [] with protocol := "tcp", port := 3000, config := "none.yml" }
    rfl).1

/-! ## `tlsConfig` -/

/-- Whenever `tlsConfig` does return a configuration, it has `InsecureSkipVerify` set exactly when
`RootCA` is empty; with a non-empty `RootCA` verification is on and `RootCAs` is the pool
filled from the contents of that file; with an empty `RootCA` the pool is nil.  No error is
returned along with a configuration. -/
theorem tlsConfig_trust (env : Env) (config : ClientConfig) (cfg : TLSConfig)
    (h : (tlsConfig env config).1 = some cfg) :
    (cfg.InsecureSkipVerify = true ↔ config.RootCA = "")
    ∧ (config.RootCA ≠ "" →
        cfg.InsecureSkipVerify = false
        ∧ ∃ pem, env.ReadFile config.RootCA = .ok pem
          ∧ cfg.RootCAs = some (AppendCertsFromPEM env NewCertPool pem).1)
    ∧ (config.RootCA = "" → cfg.RootCAs = none)
    ∧ (tlsConfig env config).2 = none := by
  unfold tlsConfig at h ⊢
  cases hk : env.X509KeyPair with
  | error e => simp [hk] at h
  | ok cert =>
    simp only [hk] at h ⊢
    by_cases hr : config.RootCA = ""
    · simp only [hr, ne_eq, not_true_eq_false, if_false] at h ⊢
      unfold tlsConfigFinish at h ⊢
      cases hs : env.SplitHostPort config.ServerAddr with
      | error e => simp [hs] at h
      | ok hp =>
        simp only [hs] at h ⊢
        cases h
        simp
    · simp only [ne_eq, hr, not_false_eq_true, if_true] at h ⊢
      cases hf : env.ReadFile config.RootCA with
      | error e => simp [hf] at h
      | ok pem =>
        simp only [hf] at h ⊢
        by_cases hok : (AppendCertsFromPEM env NewCertPool pem).2 = true
        · simp only [hok, Bool.not_true, Bool.false_eq_true, if_false] at h ⊢
          unfold tlsConfigFinish at h ⊢
          cases hs : env.SplitHostPort config.ServerAddr with
          | error e => simp [hs] at h
          | ok hp =>
            simp only [hs] at h ⊢
            cases h
            simp
        · simp [hok] at h

/-- An instance of `tlsConfig_trust`: the demo configuration with the one-certificate
root-CA file. -/
theorem tlsConfig_trust_witness :
    (tlsConfig (demoEnv demoCAConfig) demoCAConfig).1
      = some { ServerName := "relay.example.com", Certificates := [⟨["der"]⟩],
               InsecureSkipVerify := false, RootCAs := some ⟨[⟨"ca"⟩]⟩ }
    ∧ ((false = true ↔ demoCAConfig.RootCA = "")
      ∧ (demoCAConfig.RootCA ≠ "" →
          false = false
          ∧ ∃ pem, (demoEnv demoCAConfig).ReadFile demoCAConfig.RootCA = .ok pem
            ∧ some (⟨[⟨"ca"⟩]⟩ : CertPool)
                = some (AppendCertsFromPEM (demoEnv demoCAConfig) NewCertPool pem).1)
      ∧ (demoCAConfig.RootCA = "" → some (⟨[⟨"ca"⟩]⟩ : CertPool) = none)
      ∧ (tlsConfig (demoEnv demoCAConfig) demoCAConfig).2 = none) :=
  ⟨by decide,
   tlsConfig_trust (demoEnv demoCAConfig) demoCAConfig
     { ServerName := "relay.example.com", Certificates := [⟨["der"]⟩],
       InsecureSkipVerify := false, RootCAs := some ⟨[⟨"ca"⟩]⟩ } (by decide)⟩

theorem tlsConfig_no_certificate (env : Env) (config : ClientConfig) (cert : Certificate)
    (pem : String) (hk : env.X509KeyPair = .ok cert) (hr : config.RootCA ≠ "")
    (hf : env.ReadFile config.RootCA = .ok pem) (hp : env.pemCertificates pem = []) :
    tlsConfig env config = (none, none) := by
  unfold tlsConfig
  simp [hk, hr, hf, AppendCertsFromPEM, hp]

theorem tlsConfig_unreadable (env : Env) (config : ClientConfig) (e : String)
    (hr : config.RootCA ≠ "") (hf : env.ReadFile config.RootCA = .error e) :
    ∃ err, tlsConfig env config = (none, some err) := by
  unfold tlsConfig
  cases hk : env.X509KeyPair with
  | error e' => exact ⟨e', rfl⟩
  | ok cert => exact ⟨e, by simp [hr, hf]⟩

/-- C2, the code at the failing input: with a readable root-CA file that holds no
certificate `tlsConfig` returns neither a configuration nor an error, and `main` goes on to
create and start the client with a nil TLS configuration instead of ending with
`failed to configure tls`.  With an unreadable file the error is returned. -/
theorem tlsConfig_empty_pool_no_error :
    tlsConfig (demoEnv demoEmptyCAConfig) demoEmptyCAConfig = (none, none)
    ∧ main (demoEnv demoEmptyCAConfig) (demoCmdLine ["start-all"])
        = [.loadConfig "tunnel.yml", .log "config" "yaml",
           .newClient (demoRuntimeConfig none), .start (demoRuntimeConfig none)]
    ∧ tlsConfig (demoEnv demoMissingCAConfig) demoMissingCAConfig
        = (none, some "no such file") := by
  decide

/-- C9, the code at the failing input: with the non-empty `RootCA` path `empty.pem`, a
readable file that holds no certificate, `tlsConfig` returns a nil error, which is success
for the test `err != nil` of `main`, and a nil configuration: there is no configuration with
`InsecureSkipVerify = false` whose `RootCAs` is the pool of that file.  With the
one-certificate file `ca.pem` the same call returns such a configuration. -/
theorem tlsConfig_nil_error_nil_config :
    demoEmptyCAConfig.RootCA = "empty.pem"
    ∧ (tlsConfig (demoEnv demoEmptyCAConfig) demoEmptyCAConfig).2 = none
    ∧ (tlsConfig (demoEnv demoEmptyCAConfig) demoEmptyCAConfig).1 = none
    ∧ (demoEnv demoEmptyCAConfig).ReadFile "empty.pem" = .ok ""
    ∧ (AppendCertsFromPEM (demoEnv demoEmptyCAConfig) NewCertPool "") = (⟨[]⟩, false)
    ∧ tlsConfig (demoEnv demoCAConfig) demoCAConfig
        = (some { ServerName := "relay.example.com", Certificates := [⟨["der"]⟩],
                  InsecureSkipVerify := false, RootCAs := some ⟨[⟨"ca"⟩]⟩ }, none) :=
  ⟨rfl, rfl, rfl, rfl, rfl, rfl⟩

/-! ## The `list` command -/

theorem bytesLE_total (a b : List Nat) : bytesLE a b = true ∨ bytesLE b a = true := by
  induction a generalizing b with
  | nil => simp [bytesLE]
  | cons x xs ih =>
    cases b with
    | nil => simp [bytesLE]
    | cons y ys =>
      rcases Nat.lt_trichotomy x y with h | h | h
      · simp [bytesLE, h]
      · subst h
        simpa [bytesLE] using ih ys
      · right
        simp [bytesLE, h]

theorem bytesLE_trans (a b c : List Nat) (hab : bytesLE a b = true) (hbc : bytesLE b c = true) :
    bytesLE a c = true := by
  induction a generalizing b c with
  | nil => simp [bytesLE]
  | cons x xs ih =>
    cases b with
    | nil => simp [bytesLE] at hab
    | cons y ys =>
      cases c with
      | nil => simp [bytesLE] at hbc
      | cons z zs =>
        simp only [bytesLE] at hab hbc ⊢
        split at hab
        · split at hbc
          · have : x < z := by omega
            simp [this]
          · split at hbc
            · cases hbc
            · have : x < z := by omega
              simp [this]
        · split at hab
          · cases hab
          · have hxy : x = y := by omega
            subst hxy
            split at hbc
            · rename_i h; simp [h]
            · split at hbc
              · cases hbc
              · rename_i h1 h2
                simp only [h1, h2, if_false]
                exact ih ys zs hab hbc

theorem stringLE_isTotal : IsTotal String stringLE :=
  ⟨fun a b => bytesLE_total (goBytes a) (goBytes b)⟩

theorem stringLE_isTrans : IsTrans String stringLE :=
  ⟨fun a b c hab hbc => bytesLE_trans (goBytes a) (goBytes b) (goBytes c) hab hbc⟩

theorem sortStrings_sorted (names : List String) : (sortStrings names).Sorted stringLE :=
  haveI := stringLE_isTotal
  haveI := stringLE_isTrans
  List.sorted_insertionSort stringLE names

theorem parseArgs_noarg (sprintf : String → List String → String) (cl : CmdLine)
    (cmd : String) (hv : cl.version = false) (hp : cl.positional = [cmd])
    (hc : cmd = "id" ∨ cmd = "list" ∨ cmd = "start-all" ∨ cmd = "qstart") :
    parseArgs sprintf cl = .ok
      { config := cl.config, logLevel := cl.logLevel, version := false, command := cmd,
        host := cl.host, port := cl.port, protocol := cl.protocol, args := [] } := by
  unfold parseArgs
  rcases hc with rfl | rfl | rfl | rfl <;> simp [flagArg0, hp, hv]

theorem sorted_perm_abc (l : List String) (hs : l.Sorted stringLE)
    (hp : l.Perm ["b", "a", "c"]) : l = ["a", "b", "c"] := by
  have hlen : l.length = 3 := by simpa using hp.length_eq
  have hnd : l.Nodup := hp.nodup_iff.mpr (by decide)
  obtain ⟨x, y, z, rfl⟩ : ∃ x y z, l = [x, y, z] := by
    match l, hlen with
    | [x, y, z], _ => exact ⟨x, y, z, rfl⟩
  have hx : x ∈ ["b", "a", "c"] := hp.subset (by simp)
  have hy : y ∈ ["b", "a", "c"] := hp.subset (by simp)
  have hz : z ∈ ["b", "a", "c"] := hp.subset (by simp)
  simp only [List.mem_cons, List.mem_singleton, List.not_mem_nil, or_false] at hx hy hz
  rcases hx with rfl | rfl | rfl <;> rcases hy with rfl | rfl | rfl <;>
    rcases hz with rfl | rfl | rfl <;>
    first
      | rfl
      | exact absurd hnd (by decide)
      | exact absurd hs (by decide)

/-- C8: the `list` command prints, after the loader call, the tunnel names in ascending
byte-wise order: the printed sequence is sorted, is a permutation of the keys of the tunnel
map, holds every tunnel name exactly once and nothing else; when the keys are `b`, `a`, `c`
(in whatever iteration order) it is `a`, `b`, `c`. -/
theorem main_list_sorted (env : Env) (cl : CmdLine) (config : ClientConfig)
    (hv : cl.version = false) (hp : cl.positional = ["list"])
    (hload : env.loadClientConfigFromFile cl.config = .ok config)
    (hnd : (mapKeys config.Tunnels).Nodup) :
    ∃ names, main env cl = .loadConfig cl.config :: names.map .stdout
      ∧ names.Sorted stringLE
      ∧ names.Perm (mapKeys config.Tunnels)
      ∧ (∀ n ∈ mapKeys config.Tunnels, names.count n = 1)
      ∧ (∀ n ∈ names, n ∈ mapKeys config.Tunnels)
      ∧ ((mapKeys config.Tunnels).Perm ["b", "a", "c"] → names = ["a", "b", "c"]) := by
  have hparse := parseArgs_noarg env.sprintf cl "list" hv hp (by simp)
  have hperm : (sortStrings (mapKeys config.Tunnels)).Perm (mapKeys config.Tunnels) :=
    List.perm_insertionSort _ _
  have hsorted : (sortStrings (mapKeys config.Tunnels)).Sorted stringLE :=
    sortStrings_sorted _
  refine ⟨sortStrings (mapKeys config.Tunnels), ?_, hsorted, hperm, ?_, ?_, ?_⟩
  · unfold main
    rw [hparse]
    simp [mainConfig, hload, mainCommand]
  · intro n hn
    rw [hperm.count_eq]
    exact List.count_eq_one_of_mem hnd hn
  · intro n hn
    exact hperm.subset hn
  · intro h
    exact sorted_perm_abc _ hsorted (hperm.trans h)

/-- Witness for C8: `list` on the demo configuration, whose map is iterated as `b`, `a`, `c`. -/
theorem main_list_sorted_witness :
    (mapKeys demoConfig.Tunnels).Nodup
    ∧ ∃ names, main (demoEnv demoConfig) (demoCmdLine ["list"])
        = .loadConfig "tunnel.yml" :: names.map .stdout
      ∧ names.Sorted stringLE
      ∧ names.Perm (mapKeys demoConfig.Tunnels)
      ∧ (∀ n ∈ mapKeys demoConfig.Tunnels, names.count n = 1)
      ∧ (∀ n ∈ names, n ∈ mapKeys demoConfig.Tunnels)
      ∧ ((mapKeys demoConfig.Tunnels).Perm ["b", "a", "c"] → names = ["a", "b", "c"]) :=
  ⟨by decide,
   main_list_sorted (demoEnv demoConfig) (demoCmdLine ["list"]) demoConfig rfl rfl rfl
     (by decide)⟩

/-! ## The routing tables -/

theorem exists_last {α : Type} (P : α → Prop) (l : List α) (h : ∃ x ∈ l, P x) :
    ∃ pre x post, l = pre ++ x :: post ∧ P x ∧ ∀ y ∈ post, ¬ P y := by
  induction l with
  | nil => simp at h
  | cons a l ih =>
    by_cases hl : ∃ x ∈ l, P x
    · obtain ⟨pre, x, post, hdec, hx, hpost⟩ := ih hl
      exact ⟨a :: pre, x, post, by simp [hdec], hx, hpost⟩
    · obtain ⟨x, hx, hPx⟩ := h
      rcases List.mem_cons.mp hx with rfl | hx'
      · refine ⟨[], x, l, rfl, hPx, ?_⟩
        intro y hy hPy
        exact hl ⟨y, hy, hPy⟩
      · exact absurd ⟨x, hx', hPx⟩ hl

theorem proxyLoop_ok (env : Env) (rest : List (String × Tunnel)) (httpURL : GoMap URL)
    (tcpAddr : GoMap String)
    (hparse : ∀ nt ∈ rest, nt.2.Protocol = env.proto.HTTP →
      ∃ u, env.urlParse nt.2.Addr = .ok u) :
    ∃ p, proxyLoop env rest httpURL tcpAddr = .ok p := by
  induction rest generalizing httpURL tcpAddr with
  | nil => exact ⟨_, rfl⟩
  | cons e rest ih =>
    obtain ⟨n, t⟩ := e
    have hrest : ∀ nt ∈ rest, nt.2.Protocol = env.proto.HTTP →
        ∃ u, env.urlParse nt.2.Addr = .ok u :=
      fun nt hnt => hparse nt (List.mem_cons_of_mem _ hnt)
    unfold proxyLoop
    split
    · rename_i hp
      obtain ⟨u, hu⟩ := hparse (n, t) (List.mem_cons_self _ _) hp
      simp only [hu]
      exact ih _ _ hrest
    · split
      · exact ih _ _ hrest
      · split
        · exact ih _ _ hrest
        · exact ih _ _ hrest

theorem proxyLoop_append_ok (env : Env) (l₁ l₂ : List (String × Tunnel)) (httpURL : GoMap URL)
    (tcpAddr : GoMap String) (p : ProxyTables)
    (h : proxyLoop env (l₁ ++ l₂) httpURL tcpAddr = .ok p) :
    ∃ p₁, proxyLoop env l₁ httpURL tcpAddr = .ok p₁
      ∧ proxyLoop env l₂ p₁.httpURL p₁.tcpAddr = .ok p := by
  induction l₁ generalizing httpURL tcpAddr with
  | nil => exact ⟨⟨httpURL, tcpAddr⟩, rfl, h⟩
  | cons e rest ih =>
    obtain ⟨n, t⟩ := e
    rw [List.cons_append] at h
    rw [proxyLoop] at h ⊢
    split at h
    · rename_i hp
      simp only [hp, if_true]
      split at h
      · cases h
      · rename_i u hu
        exact ih _ _ h
    · rename_i hp
      simp only [hp, if_false]
      split at h
      · rename_i ht
        simp only [ht, if_true]
        exact ih _ _ h
      · rename_i ht
        simp only [ht, if_false]
        split at h
        · rename_i hs
          simp only [hs, if_true]
          exact ih _ _ h
        · rename_i hs
          simp only [hs, if_false]
          exact ih _ _ h

theorem proxyLoop_http_untouched (env : Env) (k : String) (rest : List (String × Tunnel))
    (httpURL : GoMap URL) (tcpAddr : GoMap String) (p : ProxyTables)
    (h : proxyLoop env rest httpURL tcpAddr = .ok p)
    (hno : ∀ x ∈ rest, ¬ (x.2.Protocol = env.proto.HTTP ∧ x.2.Host = k)) :
    mapGet p.httpURL k = mapGet httpURL k := by
  induction rest generalizing httpURL tcpAddr with
  | nil =>
    simp only [proxyLoop] at h
    cases h
    rfl
  | cons e rest ih =>
    obtain ⟨n, t⟩ := e
    have hrest : ∀ x ∈ rest, ¬ (x.2.Protocol = env.proto.HTTP ∧ x.2.Host = k) :=
      fun x hx => hno x (List.mem_cons_of_mem _ hx)
    have hhead := hno (n, t) (List.mem_cons_self _ _)
    unfold proxyLoop at h
    split at h
    · rename_i hp
      split at h
      · cases h
      · have hk : ¬ t.Host = k := fun hk => hhead ⟨hp, hk⟩
        rw [ih _ _ h hrest, mapGet_mapSet]
        simp [hk]
    · split at h
      · exact ih _ _ h hrest
      · split at h
        · exact ih _ _ h hrest
        · exact ih _ _ h hrest

theorem proxyLoop_tcp_untouched (env : Env) (k : String) (rest : List (String × Tunnel))
    (httpURL : GoMap URL) (tcpAddr : GoMap String) (p : ProxyTables)
    (h : proxyLoop env rest httpURL tcpAddr = .ok p)
    (hno : ∀ x ∈ rest, tcpKey env x.2 ≠ some k) :
    mapGet p.tcpAddr k = mapGet tcpAddr k := by
  induction rest generalizing httpURL tcpAddr with
  | nil =>
    simp only [proxyLoop] at h
    cases h
    rfl
  | cons e rest ih =>
    obtain ⟨n, t⟩ := e
    have hrest : ∀ x ∈ rest, tcpKey env x.2 ≠ some k :=
      fun x hx => hno x (List.mem_cons_of_mem _ hx)
    have hhead : tcpKey env t ≠ some k := hno (n, t) (List.mem_cons_self _ _)
    unfold proxyLoop at h
    split at h
    · split at h
      · cases h
      · exact ih _ _ h hrest
    · rename_i hp
      split at h
      · rename_i ht
        have hk : ¬ t.RemoteAddr = k := by
          intro hk
          apply hhead
          rw [tcpKey, if_neg hp, if_pos ht, hk]
        rw [ih _ _ h hrest, mapGet_mapSet]
        simp [hk]
      · rename_i ht
        split at h
        · rename_i hs
          have hk : ¬ t.Host = k := by
            intro hk
            apply hhead
            rw [tcpKey, if_neg hp, if_neg ht, if_pos hs, hk]
          rw [ih _ _ h hrest, mapGet_mapSet]
          simp [hk]
        · exact ih _ _ h hrest

theorem proxyLoop_nodup (env : Env) (rest : List (String × Tunnel))
    (httpURL : GoMap URL) (tcpAddr : GoMap String) (p : ProxyTables)
    (h : proxyLoop env rest httpURL tcpAddr = .ok p)
    (hh : (mapKeys httpURL).Nodup) (ht : (mapKeys tcpAddr).Nodup) :
    (mapKeys p.httpURL).Nodup ∧ (mapKeys p.tcpAddr).Nodup := by
  induction rest generalizing httpURL tcpAddr with
  | nil =>
    simp only [proxyLoop] at h
    cases h
    exact ⟨hh, ht⟩
  | cons e rest ih =>
    obtain ⟨n, t⟩ := e
    unfold proxyLoop at h
    split at h
    · split at h
      · cases h
      · exact ih _ _ h (nodup_mapKeys_mapSet _ _ _ hh) ht
    · split at h
      · exact ih _ _ h hh (nodup_mapKeys_mapSet _ _ _ ht)
      · split at h
        · exact ih _ _ h hh (nodup_mapKeys_mapSet _ _ _ ht)
        · exact ih _ _ h hh ht

theorem proxyLoop_http_last (env : Env) (pre : List (String × Tunnel)) (nt : String × Tunnel)
    (post : List (String × Tunnel)) (httpURL : GoMap URL) (tcpAddr : GoMap String)
    (p : ProxyTables) (h : proxyLoop env (pre ++ nt :: post) httpURL tcpAddr = .ok p)
    (hp : nt.2.Protocol = env.proto.HTTP)
    (hno : ∀ x ∈ post, ¬ (x.2.Protocol = env.proto.HTTP ∧ x.2.Host = nt.2.Host)) :
    ∃ u, env.urlParse nt.2.Addr = .ok u ∧ mapGet p.httpURL nt.2.Host = some u := by
  obtain ⟨p₁, _, h₂⟩ := proxyLoop_append_ok env pre (nt :: post) httpURL tcpAddr p h
  obtain ⟨n, t⟩ := nt
  rw [proxyLoop, if_pos hp] at h₂
  split at h₂
  · cases h₂
  · rename_i u hu
    refine ⟨u, hu, ?_⟩
    rw [proxyLoop_http_untouched env t.Host post _ _ p h₂ hno, mapGet_mapSet]
    simp

theorem proxyLoop_tcp_last (env : Env) (pre : List (String × Tunnel)) (nt : String × Tunnel)
    (post : List (String × Tunnel)) (httpURL : GoMap URL) (tcpAddr : GoMap String)
    (p : ProxyTables) (k : String)
    (h : proxyLoop env (pre ++ nt :: post) httpURL tcpAddr = .ok p)
    (hk : tcpKey env nt.2 = some k)
    (hno : ∀ x ∈ post, tcpKey env x.2 ≠ some k) :
    mapGet p.tcpAddr k = some nt.2.Addr := by
  obtain ⟨p₁, _, h₂⟩ := proxyLoop_append_ok env pre (nt :: post) httpURL tcpAddr p h
  obtain ⟨n, t⟩ := nt
  rw [proxyLoop] at h₂
  unfold tcpKey at hk
  split at h₂
  · rename_i hp
    simp [hp] at hk
  · rename_i hp
    rw [if_neg hp] at hk
    split at h₂
    · rename_i ht
      rw [if_pos ht] at hk
      cases hk
      rw [proxyLoop_tcp_untouched env t.RemoteAddr post _ _ p h₂ hno, mapGet_mapSet]
      simp
    · rename_i ht
      rw [if_neg ht] at hk
      split at h₂
      · rename_i hs
        rw [if_pos hs] at hk
        cases hk
        rw [proxyLoop_tcp_untouched env t.Host post _ _ p h₂ hno, mapGet_mapSet]
        simp
      · rename_i hs
        simp [hs] at hk

theorem mem_mapKeys_iff_mapGet {V : Type} (m : GoMap V) (k : String) :
    k ∈ mapKeys m ↔ ∃ v, mapGet m k = some v := by
  rw [← Option.ne_none_iff_exists', ne_eq, mapGet_eq_none_iff, not_not]

theorem proxy_http_keys (env : Env) (m : GoMap Tunnel) (p : ProxyTables)
    (h : proxy env m = .ok p) (k : String) :
    k ∈ mapKeys p.httpURL ↔ ∃ nt ∈ m, nt.2.Protocol = env.proto.HTTP ∧ nt.2.Host = k := by
  unfold proxy at h
  constructor
  · intro hk
    by_contra hno
    have hno' : ∀ x ∈ m, ¬ (x.2.Protocol = env.proto.HTTP ∧ x.2.Host = k) :=
      fun x hx hP => hno ⟨x, hx, hP⟩
    have hget := proxyLoop_http_untouched env k m [] [] p h hno'
    obtain ⟨v, hv⟩ := (mem_mapKeys_iff_mapGet _ _).mp hk
    rw [hv] at hget
    simp [mapGet] at hget
  · intro hex
    obtain ⟨pre, nt, post, hdec, ⟨hp, hk⟩, hpost⟩ :=
      exists_last (fun x : String × Tunnel => x.2.Protocol = env.proto.HTTP ∧ x.2.Host = k)
        m hex
    subst hk
    rw [hdec] at h
    obtain ⟨u, _, hu⟩ := proxyLoop_http_last env pre nt post [] [] p h hp hpost
    exact (mem_mapKeys_iff_mapGet _ _).mpr ⟨u, hu⟩

theorem proxy_tcp_keys (env : Env) (m : GoMap Tunnel) (p : ProxyTables)
    (h : proxy env m = .ok p) (k : String) :
    k ∈ mapKeys p.tcpAddr ↔ ∃ nt ∈ m, tcpKey env nt.2 = some k := by
  unfold proxy at h
  constructor
  · intro hk
    by_contra hno
    have hno' : ∀ x ∈ m, tcpKey env x.2 ≠ some k := fun x hx hP => hno ⟨x, hx, hP⟩
    have hget := proxyLoop_tcp_untouched env k m [] [] p h hno'
    obtain ⟨v, hv⟩ := (mem_mapKeys_iff_mapGet _ _).mp hk
    rw [hv] at hget
    simp [mapGet] at hget
  · intro hex
    obtain ⟨pre, nt, post, hdec, hk, hpost⟩ :=
      exists_last (fun x : String × Tunnel => tcpKey env x.2 = some k) m hex
    rw [hdec] at h
    exact (mem_mapKeys_iff_mapGet _ _).mpr
      ⟨_, proxyLoop_tcp_last env pre nt post [] [] p k h hk hpost⟩

theorem tcpKey_eq_some_iff (env : Env) (hd : env.proto.Distinct) (t : Tunnel) (k : String) :
    tcpKey env t = some k ↔
      ((t.Protocol = env.proto.TCP ∨ t.Protocol = env.proto.TCP4
          ∨ t.Protocol = env.proto.TCP6) ∧ t.RemoteAddr = k)
        ∨ (t.Protocol = env.proto.SNI ∧ t.Host = k) := by
  unfold ProtoConsts.Distinct at hd
  simp only [List.nodup_cons, List.mem_cons, List.mem_singleton, List.not_mem_nil, or_false,
    not_or, List.nodup_nil, and_true, not_false_eq_true] at hd
  obtain ⟨⟨h1, h2, h3, h4⟩, ⟨h5, h6, h7⟩, ⟨h8, h9⟩, h10⟩ := hd
  unfold tcpKey
  by_cases hp : t.Protocol = env.proto.HTTP
  · rw [if_pos hp]
    have e1 : ¬ t.Protocol = env.proto.TCP := fun h => h1 (hp.symm.trans h)
    have e2 : ¬ t.Protocol = env.proto.TCP4 := fun h => h2 (hp.symm.trans h)
    have e3 : ¬ t.Protocol = env.proto.TCP6 := fun h => h3 (hp.symm.trans h)
    have e4 : ¬ t.Protocol = env.proto.SNI := fun h => h4 (hp.symm.trans h)
    simp [e1, e2, e3, e4]
  · rw [if_neg hp]
    by_cases ht : t.Protocol = env.proto.TCP ∨ t.Protocol = env.proto.TCP4
        ∨ t.Protocol = env.proto.TCP6
    · rw [if_pos ht]
      have e4 : ¬ t.Protocol = env.proto.SNI := by
        intro h
        rcases ht with ht | ht | ht
        · exact h7 (ht.symm.trans h)
        · exact h9 (ht.symm.trans h)
        · exact h10 (ht.symm.trans h)
      simp only [Option.some.injEq, ht, true_and, e4, false_and, or_false]
    · rw [if_neg ht]
      by_cases hs : t.Protocol = env.proto.SNI
      · rw [if_pos hs]
        constructor
        · intro h
          exact Or.inr ⟨hs, Option.some.inj h⟩
        · rintro (⟨h, _⟩ | ⟨_, h⟩)
          · exact absurd h ht
          · rw [h]
      · rw [if_neg hs]
        simp [ht, hs]

/-- C10: when the address of every HTTP definition parses, `proxy` returns its tables, and
the keys of the HTTP table are exactly the hosts of the HTTP definitions, each key once; an
HTTP definition after which no HTTP definition of the same host is visited has its host
mapped to its parsed address, so every entry is the parsed address of some HTTP definition
with that host. -/
theorem proxy_http_table (env : Env) (m : GoMap Tunnel)
    (hparse : ∀ nt ∈ m, nt.2.Protocol = env.proto.HTTP →
      ∃ u, env.urlParse nt.2.Addr = .ok u) :
    ∃ p, proxy env m = .ok p
      ∧ (∀ h, h ∈ mapKeys p.httpURL ↔
          ∃ nt ∈ m, nt.2.Protocol = env.proto.HTTP ∧ nt.2.Host = h)
      ∧ (∀ h ∈ mapKeys p.httpURL, (mapKeys p.httpURL).count h = 1)
      ∧ (∀ pre nt post, m = pre ++ nt :: post → nt.2.Protocol = env.proto.HTTP →
          (∀ x ∈ post, ¬ (x.2.Protocol = env.proto.HTTP ∧ x.2.Host = nt.2.Host)) →
          ∃ u, env.urlParse nt.2.Addr = .ok u ∧ mapGet p.httpURL nt.2.Host = some u)
      ∧ (∀ h u, mapGet p.httpURL h = some u →
          ∃ nt ∈ m, nt.2.Protocol = env.proto.HTTP ∧ nt.2.Host = h
            ∧ env.urlParse nt.2.Addr = .ok u) := by
  obtain ⟨p, hp⟩ := proxyLoop_ok env m [] [] hparse
  have hproxy : proxy env m = .ok p := hp
  have hnd := (proxyLoop_nodup env m [] [] p hp (by simp [mapKeys]) (by simp [mapKeys])).1
  have hlast : ∀ pre nt post, m = pre ++ nt :: post → nt.2.Protocol = env.proto.HTTP →
      (∀ x ∈ post, ¬ (x.2.Protocol = env.proto.HTTP ∧ x.2.Host = nt.2.Host)) →
      ∃ u, env.urlParse nt.2.Addr = .ok u ∧ mapGet p.httpURL nt.2.Host = some u := by
    intro pre nt post hdec hproto hpost
    rw [hdec] at hp
    exact proxyLoop_http_last env pre nt post [] [] p hp hproto hpost
  refine ⟨p, hproxy, proxy_http_keys env m p hproxy, ?_, hlast, ?_⟩
  · intro h hh
    exact List.count_eq_one_of_mem hnd hh
  · intro h u hu
    have hmem : h ∈ mapKeys p.httpURL := (mem_mapKeys_iff_mapGet _ _).mpr ⟨u, hu⟩
    obtain ⟨pre, nt, post, hdec, ⟨hproto, hhost⟩, hpost⟩ :=
      exists_last (fun x : String × Tunnel => x.2.Protocol = env.proto.HTTP ∧ x.2.Host = h)
        m ((proxy_http_keys env m p hproxy h).mp hmem)
    subst hhost
    obtain ⟨u', hu', hget⟩ := hlast pre nt post hdec hproto hpost
    rw [hu] at hget
    cases hget
    exact ⟨nt, by simp [hdec], hproto, rfl, hu'⟩

/-- Witness for C10: two HTTP definitions of the same host. -/
theorem proxy_http_table_witness :
    (∀ nt ∈ demoSameHostTunnels, nt.2.Protocol = (demoEnv demoConfig).proto.HTTP →
      ∃ u, (demoEnv demoConfig).urlParse nt.2.Addr = .ok u)
    ∧ proxy (demoEnv demoConfig) demoSameHostTunnels
        = .ok ⟨[("www.example.com", ⟨"http://localhost:9090"⟩)], []⟩
    ∧ ∃ p, proxy (demoEnv demoConfig) demoSameHostTunnels = .ok p
      ∧ (∀ h, h ∈ mapKeys p.httpURL ↔
          ∃ nt ∈ demoSameHostTunnels,
            nt.2.Protocol = (demoEnv demoConfig).proto.HTTP ∧ nt.2.Host = h)
      ∧ (∀ h ∈ mapKeys p.httpURL, (mapKeys p.httpURL).count h = 1)
      ∧ (∀ pre nt post, demoSameHostTunnels = pre ++ nt :: post →
          nt.2.Protocol = (demoEnv demoConfig).proto.HTTP →
          (∀ x ∈ post,
            ¬ (x.2.Protocol = (demoEnv demoConfig).proto.HTTP ∧ x.2.Host = nt.2.Host)) →
          ∃ u, (demoEnv demoConfig).urlParse nt.2.Addr = .ok u
            ∧ mapGet p.httpURL nt.2.Host = some u)
      ∧ (∀ h u, mapGet p.httpURL h = some u →
          ∃ nt ∈ demoSameHostTunnels,
            nt.2.Protocol = (demoEnv demoConfig).proto.HTTP ∧ nt.2.Host = h
              ∧ (demoEnv demoConfig).urlParse nt.2.Addr = .ok u) :=
  have hparse : ∀ nt ∈ demoSameHostTunnels,
      nt.2.Protocol = (demoEnv demoConfig).proto.HTTP →
      ∃ u, (demoEnv demoConfig).urlParse nt.2.Addr = .ok u := by
    intro nt hnt _
    simp only [demoSameHostTunnels, List.mem_cons, List.mem_singleton, List.not_mem_nil,
      or_false] at hnt
    rcases hnt with rfl | rfl
    · exact ⟨⟨"http://localhost:8080"⟩, rfl⟩
    · exact ⟨⟨"http://localhost:9090"⟩, rfl⟩
  ⟨hparse, rfl, proxy_http_table (demoEnv demoConfig) demoSameHostTunnels hparse⟩

/-- C6 (as the code has it): `proxy` builds two tables, not three.  With pairwise different
protocol names and parsing HTTP addresses, the keys of the TCP table are exactly the remote
addresses of the TCP, TCP4 and TCP6 definitions together with the hosts of the SNI
definitions, each key once; the definition that is the last one visited to write a key has
its address stored there; the keys of the HTTP table are exactly the hosts of the HTTP
definitions, so that an HTTP definition touches only the HTTP table and no other definition
touches it. -/
theorem proxy_tcp_table (env : Env) (m : GoMap Tunnel) (hd : env.proto.Distinct)
    (hparse : ∀ nt ∈ m, nt.2.Protocol = env.proto.HTTP →
      ∃ u, env.urlParse nt.2.Addr = .ok u) :
    ∃ p, proxy env m = .ok p
      ∧ (∀ k, k ∈ mapKeys p.tcpAddr ↔
          ∃ nt ∈ m,
            ((nt.2.Protocol = env.proto.TCP ∨ nt.2.Protocol = env.proto.TCP4
                ∨ nt.2.Protocol = env.proto.TCP6) ∧ nt.2.RemoteAddr = k)
              ∨ (nt.2.Protocol = env.proto.SNI ∧ nt.2.Host = k))
      ∧ (∀ k ∈ mapKeys p.tcpAddr, (mapKeys p.tcpAddr).count k = 1)
      ∧ (∀ pre nt post k, m = pre ++ nt :: post →
          (((nt.2.Protocol = env.proto.TCP ∨ nt.2.Protocol = env.proto.TCP4
                ∨ nt.2.Protocol = env.proto.TCP6) ∧ nt.2.RemoteAddr = k)
              ∨ (nt.2.Protocol = env.proto.SNI ∧ nt.2.Host = k)) →
          (∀ x ∈ post,
            ¬ (((x.2.Protocol = env.proto.TCP ∨ x.2.Protocol = env.proto.TCP4
                  ∨ x.2.Protocol = env.proto.TCP6) ∧ x.2.RemoteAddr = k)
                ∨ (x.2.Protocol = env.proto.SNI ∧ x.2.Host = k))) →
          mapGet p.tcpAddr k = some nt.2.Addr)
      ∧ (∀ h, h ∈ mapKeys p.httpURL ↔
          ∃ nt ∈ m, nt.2.Protocol = env.proto.HTTP ∧ nt.2.Host = h) := by
  obtain ⟨p, hp⟩ := proxyLoop_ok env m [] [] hparse
  have hproxy : proxy env m = .ok p := hp
  have hnd := (proxyLoop_nodup env m [] [] p hp (by simp [mapKeys]) (by simp [mapKeys])).2
  refine ⟨p, hproxy, ?_, ?_, ?_, proxy_http_keys env m p hproxy⟩
  · intro k
    rw [proxy_tcp_keys env m p hproxy k]
    constructor
    · rintro ⟨nt, hnt, hk⟩
      exact ⟨nt, hnt, (tcpKey_eq_some_iff env hd nt.2 k).mp hk⟩
    · rintro ⟨nt, hnt, hk⟩
      exact ⟨nt, hnt, (tcpKey_eq_some_iff env hd nt.2 k).mpr hk⟩
  · intro k hk
    exact List.count_eq_one_of_mem hnd hk
  · intro pre nt post k hdec hk hpost
    rw [hdec] at hp
    refine proxyLoop_tcp_last env pre nt post [] [] p k hp
      ((tcpKey_eq_some_iff env hd nt.2 k).mpr hk) ?_
    intro x hx hxk
    exact hpost x hx ((tcpKey_eq_some_iff env hd x.2 k).mp hxk)

/-- Witness for C6: the tunnels of the demo configuration, one HTTP, one TCP, one SNI. -/
theorem proxy_tcp_table_witness :
    (demoEnv demoConfig).proto.Distinct
    ∧ proxy (demoEnv demoConfig) demoConfig.Tunnels
        = .ok ⟨[("b.example.com", ⟨"http://localhost:8080"⟩)],
               [("0.0.0.0:2222", "localhost:22"), ("c.example.com", "localhost:443")]⟩
    ∧ ∃ p, proxy (demoEnv demoConfig) demoConfig.Tunnels = .ok p
      ∧ (∀ k, k ∈ mapKeys p.tcpAddr ↔
          ∃ nt ∈ demoConfig.Tunnels,
            ((nt.2.Protocol = (demoEnv demoConfig).proto.TCP
                ∨ nt.2.Protocol = (demoEnv demoConfig).proto.TCP4
                ∨ nt.2.Protocol = (demoEnv demoConfig).proto.TCP6) ∧ nt.2.RemoteAddr = k)
              ∨ (nt.2.Protocol = (demoEnv demoConfig).proto.SNI ∧ nt.2.Host = k))
      ∧ (∀ k ∈ mapKeys p.tcpAddr, (mapKeys p.tcpAddr).count k = 1)
      ∧ (∀ pre nt post k, demoConfig.Tunnels = pre ++ nt :: post →
          (((nt.2.Protocol = (demoEnv demoConfig).proto.TCP
                ∨ nt.2.Protocol = (demoEnv demoConfig).proto.TCP4
                ∨ nt.2.Protocol = (demoEnv demoConfig).proto.TCP6) ∧ nt.2.RemoteAddr = k)
              ∨ (nt.2.Protocol = (demoEnv demoConfig).proto.SNI ∧ nt.2.Host = k)) →
          (∀ x ∈ post,
            ¬ (((x.2.Protocol = (demoEnv demoConfig).proto.TCP
                  ∨ x.2.Protocol = (demoEnv demoConfig).proto.TCP4
                  ∨ x.2.Protocol = (demoEnv demoConfig).proto.TCP6) ∧ x.2.RemoteAddr = k)
                ∨ (x.2.Protocol = (demoEnv demoConfig).proto.SNI ∧ x.2.Host = k))) →
          mapGet p.tcpAddr k = some nt.2.Addr)
      ∧ (∀ h, h ∈ mapKeys p.httpURL ↔
          ∃ nt ∈ demoConfig.Tunnels,
            nt.2.Protocol = (demoEnv demoConfig).proto.HTTP ∧ nt.2.Host = h) :=
  have hparse : ∀ nt ∈ demoConfig.Tunnels,
      nt.2.Protocol = (demoEnv demoConfig).proto.HTTP →
      ∃ u, (demoEnv demoConfig).urlParse nt.2.Addr = .ok u := by
    intro nt hnt hproto
    simp only [demoConfig, List.mem_cons, List.mem_singleton, List.not_mem_nil,
      or_false] at hnt
    rcases hnt with rfl | rfl | rfl
    · exact ⟨⟨"http://localhost:8080"⟩, rfl⟩
    · exact absurd hproto (by decide)
    · exact absurd hproto (by decide)
  ⟨by decide, rfl,
   proxy_tcp_table (demoEnv demoConfig) demoConfig.Tunnels (by decide) hparse⟩

/-- C6, counterexample: an SNI definition writes into the TCP table.  In the demo
configuration, which has no TCP definition with that remote address, the host of the SNI
definition is a key of the TCP table; and an SNI definition whose host is the remote address
of a TCP definition visited before it replaces the address stored for the TCP definition. -/
theorem proxy_sni_writes_tcp_table :
    proxy (demoEnv demoConfig) demoConfig.Tunnels
        = .ok ⟨[("b.example.com", ⟨"http://localhost:8080"⟩)],
               [("0.0.0.0:2222", "localhost:22"), ("c.example.com", "localhost:443")]⟩
    ∧ proxy (demoEnv demoConfig) demoClashTunnels = .ok ⟨[], [("gate", "localhost:443")]⟩ :=
  ⟨rfl, rfl⟩

end TunnelCmd
